import Mathlib

/-!
Shallow embedding of the oci_rs statement/codec core (src/types.rs,
src/statement.rs, src/oci_error.rs, src/oci_bindings.rs) and proofs of the
frozen specification claims.

Modelling conventions:
* Rust u8 values are Nat values below 256; the cast `x as u8` on a signed
  32-bit value is `u8_of_int` (wrap modulo 256).
* Rust i32/i64 arithmetic uses Int with truncating division `Int.tdiv`
  (Rust `/` truncates toward zero) where the source divides.
* Rust `f64` values are represented by their 64-bit pattern (a Nat below
  2^64); the byteorder read/write pair moves those bits unchanged, and the
  spec claim asks for a bit-for-bit comparison.
* chrono `DateTime<Utc>` is a record of its calendar fields, `Date<Utc>`
  of year/month/day, and `DateTime<FixedOffset>` stores its UTC fields
  plus the fixed offset in seconds; the source only reads UTC fields from
  a fixed-offset value (it converts with `with_timezone(&Utc)` first), so
  local field accessors are never needed.  chrono equality of two
  `DateTime<FixedOffset>` values compares the instants, i.e. the UTC
  fields, ignoring the display offset.
* Fallible code returns Option/Except style results; `panic!` branches
  become dedicated constructors so a panic is distinguishable from a
  returned error value.
-/

namespace OciRs

/-- The OciDataType enum from oci_bindings.rs. -/
inductive OciDataType
  | SqlVarChar
  | SqlInt
  | SqlNum
  | SqlFloat
  | SqlDate
  | SqlChar
  | SqlTimestamp
  | SqlTimestampTz
  deriving DecidableEq, Repr

/-- The ReturnCode enum from oci_bindings.rs. -/
inductive ReturnCode
  | Success
  | Error
  | NoData
  | InvalidHandle
  deriving DecidableEq, Repr

/-- The StatementType enum from oci_bindings.rs. -/
inductive StatementType
  | Unknown
  | Select
  | Update
  | Delete
  | Insert
  | Create
  | Drop
  | Alter
  | Begin
  | Declare
  deriving DecidableEq, Repr

/-- Rust cast `x as u8` of a signed 32-bit integer: wrap modulo 256. -/
def u8_of_int (x : Int) : Nat := (x % 256).toNat

/-- types.rs convert_century: `(i32::from(b) - 100) * 100`. -/
def convert_century (century_byte : Nat) : Int :=
  ((century_byte : Int) - 100) * 100

/-- types.rs convert_year_to_century_raw: `((year / 100) + 100) as u8`,
with Rust truncating division. -/
def convert_year_to_century_raw (year : Int) : Nat :=
  u8_of_int (year.tdiv 100 + 100)

/-- types.rs convert_year: `i32::from(b) - 100`. -/
def convert_year (year_byte : Nat) : Int :=
  (year_byte : Int) - 100

/-- types.rs convert_year_to_raw: `(year - ((year / 100) * 100) + 100) as u8`. -/
def convert_year_to_raw (year : Int) : Nat :=
  u8_of_int (year - (year.tdiv 100) * 100 + 100)

/-- types.rs convert_month: `u32::from(b)`. -/
def convert_month (month_byte : Nat) : Nat := month_byte

/-- types.rs convert_day: `u32::from(b)`. -/
def convert_day (day_byte : Nat) : Nat := day_byte

/-- types.rs convert_hour: `u32::from(b) - 1`. -/
def convert_hour (hour_byte : Nat) : Nat := hour_byte - 1

/-- types.rs convert_hour_to_raw: `(hour + 1) as u8`. -/
def convert_hour_to_raw (hour : Nat) : Nat := (hour + 1) % 256

/-- types.rs convert_minute: `u32::from(b) - 1`. -/
def convert_minute (minute_byte : Nat) : Nat := minute_byte - 1

/-- types.rs convert_minute_to_raw: `(minute + 1) as u8`. -/
def convert_minute_to_raw (minute : Nat) : Nat := (minute + 1) % 256

/-- types.rs convert_second: `u32::from(b) - 1`. -/
def convert_second (second_byte : Nat) : Nat := second_byte - 1

/-- types.rs convert_second_to_raw: `(second + 1) as u8`. -/
def convert_second_to_raw (second : Nat) : Nat := (second + 1) % 256

/-- types.rs convert_nano: `BigEndian::read_u32` of four bytes. -/
def convert_nano (b0 b1 b2 b3 : Nat) : Nat :=
  b0 * 16777216 + b1 * 65536 + b2 * 256 + b3

/-- types.rs convert_nano_to_raw: `BigEndian::write_u32`, four bytes,
most significant first. -/
def convert_nano_to_raw (nano : Nat) : List Nat :=
  [nano / 16777216 % 256, nano / 65536 % 256, nano / 256 % 256, nano % 256]

/-- types.rs convert_timezone_hour: `i32::from(b) - 20`. -/
def convert_timezone_hour (timezone_hour_byte : Nat) : Int :=
  (timezone_hour_byte : Int) - 20

/-- types.rs convert_timezone_seconds_to_hour_raw:
`((secs / 3600) + 20) as u8`. -/
def convert_timezone_seconds_to_hour_raw (timezone_seconds : Int) : Nat :=
  u8_of_int (timezone_seconds.tdiv 3600 + 20)

/-- types.rs convert_timezone_minute: `i32::from(b) - 60`. -/
def convert_timezone_minute (timezone_minute_byte : Nat) : Int :=
  (timezone_minute_byte : Int) - 60

/-- types.rs convert_timezone_seconds_to_minute_raw:
`(((secs - ((secs / 3600) * 3600)) / 60) + 60) as u8`. -/
def convert_timezone_seconds_to_minute_raw (timezone_seconds : Int) : Nat :=
  u8_of_int ((timezone_seconds - (timezone_seconds.tdiv 3600) * 3600).tdiv 60 + 60)

/-- chrono `Date<Utc>`: a calendar day. -/
structure RustDate where
  year : Int
  month : Nat
  day : Nat
  deriving DecidableEq, Repr

/-- chrono `DateTime<Utc>`: calendar fields of a UTC instant. -/
structure RustDateTime where
  year : Int
  month : Nat
  day : Nat
  hour : Nat
  minute : Nat
  second : Nat
  nano : Nat
  deriving DecidableEq, Repr

/-- chrono `DateTime<FixedOffset>`: the UTC instant (as its UTC calendar
fields) together with the fixed display offset in seconds
(`offset().local_minus_utc()`).  chrono equality of two such values
compares only the instant, i.e. the `utc` component here. -/
structure RustDateTimeTz where
  utc : RustDateTime
  offsetSecs : Int
  deriving DecidableEq, Repr

/-- chrono `DateTime::date`: drop the time-of-day fields. -/
def RustDateTime.date (dt : RustDateTime) : RustDate :=
  ⟨dt.year, dt.month, dt.day⟩

/-- types.rs create_datetime_from_raw: seven (date) or eleven (timestamp)
bytes to a UTC datetime.  Out-of-range indexing (the source would panic)
reads 0. -/
def create_datetime_from_raw (data : List Nat) : RustDateTime :=
  let century := convert_century (data.getD 0 0)
  let year := convert_year (data.getD 1 0)
  let month := convert_month (data.getD 2 0)
  let day := convert_day (data.getD 3 0)
  let hour := convert_hour (data.getD 4 0)
  let minute := convert_minute (data.getD 5 0)
  let second := convert_second (data.getD 6 0)
  if data.length ≤ 7 then
    ⟨century + year, month, day, hour, minute, second, 0⟩
  else
    let nano := convert_nano (data.getD 7 0) (data.getD 8 0) (data.getD 9 0) (data.getD 10 0)
    ⟨century + year, month, day, hour, minute, second, nano⟩

/-- types.rs create_raw_from_date: the seven-byte Oracle date format.
Month and day are cast `as u8`. -/
def create_raw_from_date (date : RustDate) : List Nat :=
  [convert_year_to_century_raw date.year,
   convert_year_to_raw date.year,
   date.month % 256,
   date.day % 256,
   convert_hour_to_raw 0,
   convert_minute_to_raw 0,
   convert_second_to_raw 0]

/-- types.rs create_raw_from_datetime: the eleven-byte Oracle timestamp
format. -/
def create_raw_from_datetime (datetime : RustDateTime) : List Nat :=
  [convert_year_to_century_raw datetime.year,
   convert_year_to_raw datetime.year,
   datetime.month % 256,
   datetime.day % 256,
   convert_hour_to_raw datetime.hour,
   convert_minute_to_raw datetime.minute,
   convert_second_to_raw datetime.second]
  ++ convert_nano_to_raw datetime.nano

/-- types.rs create_datetime_with_timezone_from_raw: thirteen bytes to a
fixed-offset datetime.  The eleven leading bytes give the UTC instant, the
last two the offset; `with_timezone(FixedOffset::east(off))` keeps the
instant and sets the display offset. -/
def create_datetime_with_timezone_from_raw (data : List Nat) : RustDateTimeTz :=
  let century := convert_century (data.getD 0 0)
  let year := convert_year (data.getD 1 0)
  let month := convert_month (data.getD 2 0)
  let day := convert_day (data.getD 3 0)
  let hour := convert_hour (data.getD 4 0)
  let minute := convert_minute (data.getD 5 0)
  let second := convert_second (data.getD 6 0)
  let nano := convert_nano (data.getD 7 0) (data.getD 8 0) (data.getD 9 0) (data.getD 10 0)
  let timezone_hour := convert_timezone_hour (data.getD 11 0)
  let timezone_minute := convert_timezone_minute (data.getD 12 0)
  let hour_in_secs := timezone_hour * 3600
  let minutes_in_secs := timezone_minute * 60
  ⟨⟨century + year, month, day, hour, minute, second, nano⟩,
   hour_in_secs + minutes_in_secs⟩

/-- types.rs create_raw_from_datetime_with_timezone: thirteen bytes; the
UTC fields of the instant followed by the two offset bytes. -/
def create_raw_from_datetime_with_timezone (datetime : RustDateTimeTz) : List Nat :=
  create_raw_from_datetime datetime.utc
  ++ [convert_timezone_seconds_to_hour_raw datetime.offsetSecs,
      convert_timezone_seconds_to_minute_raw datetime.offsetSecs]

/-- Little-endian bytes of an i64 value (the in-memory representation the
bind pointer of an Integer exposes on the little-endian targets the crate
runs on; also what `LittleEndian::read_i64` expects). -/
def i64_to_bytes_le (i : Int) : List Nat :=
  let u := (i % 18446744073709551616).toNat
  [u % 256, u / 256 % 256, u / 65536 % 256, u / 16777216 % 256,
   u / 4294967296 % 256, u / 1099511627776 % 256,
   u / 281474976710656 % 256, u / 72057594037927936 % 256]

/-- Little-endian bytes of a 64-bit pattern (an f64 bit pattern in
memory). -/
def u64_to_bytes_le (bits : Nat) : List Nat :=
  let u := bits % 18446744073709551616
  [u % 256, u / 256 % 256, u / 65536 % 256, u / 16777216 % 256,
   u / 4294967296 % 256, u / 1099511627776 % 256,
   u / 281474976710656 % 256, u / 72057594037927936 % 256]

/-- byteorder `LittleEndian::read_u64` style reassembly of eight bytes. -/
def read_u64_le (data : List Nat) : Nat :=
  data.getD 0 0 % 256 + data.getD 1 0 % 256 * 256 + data.getD 2 0 % 256 * 65536 +
  data.getD 3 0 % 256 * 16777216 + data.getD 4 0 % 256 * 4294967296 +
  data.getD 5 0 % 256 * 1099511627776 + data.getD 6 0 % 256 * 281474976710656 +
  data.getD 7 0 % 256 * 72057594037927936

/-- byteorder `LittleEndian::read_i64`: reassemble and reinterpret as a
signed 64-bit two-complement value. -/
def read_i64_le (data : List Nat) : Int :=
  let u := read_u64_le data
  if u < 9223372036854775808 then (u : Int) else (u : Int) - 18446744073709551616

/-- UTF-8 validation and decoding as a byte-at-a-time state machine.
The first four arguments are the decoder state: how many continuation
bytes of the current character remain, the allowed range (inclusive) for
the next byte, and the code point accumulated so far.  A lead byte in
0x80..0xC1 (a bare continuation byte or the overlong 0xC0/0xC1), a lead
byte above 0xF4, a continuation byte outside its allowed range (the
ranges encode the overlong, surrogate and above-0x10FFFF exclusions for
lead bytes 0xE0, 0xED, 0xF0, 0xF4) and a truncated final character are
all rejected, exactly the sequences Rust String::from_utf8 rejects. -/
def utf8_decode_aux : Nat → Nat → Nat → Nat → List Nat → Option (List Nat)
  | 0, _, _, _, [] => some []
  | 0, _, _, _, b :: rest =>
    if b < 128 then (utf8_decode_aux 0 0 0 0 rest).map (fun tl => b :: tl)
    else if b < 194 then none
    else if b < 224 then utf8_decode_aux 1 128 191 (b - 192) rest
    else if b < 240 then
      utf8_decode_aux 2 (if b = 224 then 160 else 128)
        (if b = 237 then 159 else 191) (b - 224) rest
    else if b < 245 then
      utf8_decode_aux 3 (if b = 240 then 144 else 128)
        (if b = 244 then 143 else 191) (b - 240) rest
    else none
  | _ + 1, _, _, _, [] => none
  | count + 1, lo, hi, acc, b :: rest =>
    if lo ≤ b ∧ b ≤ hi then
      match count with
      | 0 => (utf8_decode_aux 0 0 0 0 rest).map
          (fun tl => (acc * 64 + (b - 128)) :: tl)
      | c + 1 => utf8_decode_aux (c + 1) 128 191 (acc * 64 + (b - 128)) rest
    else none

/-- Rust `String::from_utf8`: bytes to Unicode scalar values, or a
`FromUtf8Error` (none) on malformed input. -/
def string_from_utf8 (data : List Nat) : Option (List Nat) :=
  utf8_decode_aux 0 0 0 0 data

/-- UTF-8 encoding of a Unicode scalar value: the byte sequence a Rust
String stores for one char. -/
def utf8_encode_char (c : Nat) : List Nat :=
  if c < 128 then [c]
  else if c < 2048 then [192 + c / 64, 128 + c % 64]
  else if c < 65536 then [224 + c / 4096, 128 + c / 64 % 64, 128 + c % 64]
  else [240 + c / 262144, 128 + c / 4096 % 64, 128 + c / 64 % 64, 128 + c % 64]

/-- The byte sequence a Rust String stores (`str::as_ptr`/`len` expose
exactly these bytes). -/
def utf8_encode (chars : List Nat) : List Nat :=
  (chars.map utf8_encode_char).flatten

/-- Rust `char::is_whitespace`: the Unicode White_Space code points. -/
def rust_is_whitespace (c : Nat) : Bool :=
  c = 9 ∨ c = 10 ∨ c = 11 ∨ c = 12 ∨ c = 13 ∨ c = 32 ∨ c = 133 ∨ c = 160 ∨
  c = 5760 ∨ (8192 ≤ c ∧ c ≤ 8202) ∨ c = 8232 ∨ c = 8233 ∨ c = 8239 ∨
  c = 8287 ∨ c = 12288

/-- Drop leading whitespace (Rust `str::trim_start`). -/
def rust_trim_start (chars : List Nat) : List Nat :=
  chars.dropWhile rust_is_whitespace

/-- Drop trailing whitespace (Rust `str::trim_end`). -/
def rust_trim_end (chars : List Nat) : List Nat :=
  (chars.reverse.dropWhile rust_is_whitespace).reverse

/-- Rust `str::trim`: whitespace removed from BOTH ends. -/
def rust_trim (chars : List Nat) : List Nat :=
  rust_trim_end (rust_trim_start chars)

/-- The SqlValue enum from types.rs.  Strings are their Unicode scalar
values, the f64 of Float is its 64-bit pattern, and the temporal variants
carry the attached fixed-width byte buffer (7 / 11 / 13 bytes). -/
inductive SqlValue
  | VarChar (chars : List Nat)
  | Char (chars : List Nat)
  | Integer (i : Int)
  | Float (bits : Nat)
  | Null
  | Date (d : RustDate) (buf : List Nat)
  | Timestamp (dt : RustDateTime) (buf : List Nat)
  | TimestampTz (dt : RustDateTimeTz) (buf : List Nat)
  deriving DecidableEq, Repr

/-- types.rs `SqlValue::as_oci_ptr`, modelled by the byte buffer the
returned pointer exposes to the native layer: the string bytes for text,
the 8-byte little-endian in-memory form for Integer/Float (the crate
targets little-endian machines), and the attached buffer for temporal
values.  The Null arm is `panic!("Null not handled")`, modelled as none. -/
def SqlValue.as_oci_ptr : SqlValue → Option (List Nat)
  | .VarChar chars | .Char chars => some (utf8_encode chars)
  | .Integer i => some (i64_to_bytes_le i)
  | .Float bits => some (u64_to_bytes_le bits)
  | .Null => none
  | .Date _ b => some b
  | .Timestamp _ b => some b
  | .TimestampTz _ b => some b

/-- types.rs `SqlValue::size`; the Null arm is `panic!("Null not
handled")`, modelled as none.  A String reports its capacity, which for
the strings built by `to_sql_value` (fresh clones) is its byte length. -/
def SqlValue.size : SqlValue → Option Int
  | .VarChar chars | .Char chars => some ((utf8_encode chars).length)
  | .Integer _ | .Float _ => some 8
  | .Null => none
  | .Date _ _ => some 7
  | .Timestamp _ _ => some 11
  | .TimestampTz _ _ => some 13

/-- types.rs `SqlValue::as_oci_data_type`; the Null arm is
`panic!("Null not handled")`, modelled as none. -/
def SqlValue.as_oci_data_type : SqlValue → Option OciDataType
  | .VarChar _ => some .SqlVarChar
  | .Char _ => some .SqlChar
  | .Integer _ => some .SqlInt
  | .Float _ => some .SqlFloat
  | .Null => none
  | .Date _ _ => some .SqlDate
  | .Timestamp _ _ => some .SqlTimestamp
  | .TimestampTz _ _ => some .SqlTimestampTz

/-- Result of `SqlValue::create_from_raw`: Ok, an
`OciError::Conversion` value carrying the utf8 failure, or the panic of
the catch-all arm for unsupported types. -/
inductive CreateRawResult
  | ok (v : SqlValue)
  | conversionError
  | panicked
  deriving DecidableEq, Repr

/-- types.rs `SqlValue::create_from_raw`: decode raw column bytes at a
given external type.  VarChar text is `trim()`med (both ends), Char text
is not; invalid utf8 yields `Err(OciError::Conversion(..))`; integer and
float are read little-endian; temporal types are decoded and re-encoded
so the attached buffer is rebuilt from the decoded value; any other type
tag hits the `panic!` catch-all. -/
def SqlValue.create_from_raw (data : List Nat) : OciDataType → CreateRawResult
  | .SqlVarChar =>
    match string_from_utf8 data with
    | some chars => .ok (.VarChar (rust_trim chars))
    | none => .conversionError
  | .SqlChar =>
    match string_from_utf8 data with
    | some chars => .ok (.Char chars)
    | none => .conversionError
  | .SqlInt => .ok (.Integer (read_i64_le data))
  | .SqlFloat => .ok (.Float (read_u64_le data))
  | .SqlDate =>
    let datetime := create_datetime_from_raw data
    let date := datetime.date
    .ok (.Date date (create_raw_from_date date))
  | .SqlTimestamp =>
    let datetime := create_datetime_from_raw data
    .ok (.Timestamp datetime (create_raw_from_datetime datetime))
  | .SqlTimestampTz =>
    let datetime_tz := create_datetime_with_timezone_from_raw data
    .ok (.TimestampTz datetime_tz (create_raw_from_datetime_with_timezone datetime_tz))
  | .SqlNum => .panicked

/-- types.rs `impl ToSqlValue for String` (and `&str`, which clones into
an owned String first): a VarChar. -/
def to_sql_value_string (chars : List Nat) : SqlValue := .VarChar chars

/-- types.rs `impl ToSqlValue for i64`. -/
def to_sql_value_i64 (i : Int) : SqlValue := .Integer i

/-- types.rs `impl ToSqlValue for f64` (the value is its bit pattern). -/
def to_sql_value_f64 (bits : Nat) : SqlValue := .Float bits

/-- types.rs `impl ToSqlValue for Date<Utc>`: attaches the seven-byte
encoding. -/
def to_sql_value_date (d : RustDate) : SqlValue :=
  .Date d (create_raw_from_date d)

/-- types.rs `impl ToSqlValue for DateTime<Utc>`: attaches the
eleven-byte encoding. -/
def to_sql_value_datetime (dt : RustDateTime) : SqlValue :=
  .Timestamp dt (create_raw_from_datetime dt)

/-- types.rs `impl ToSqlValue for DateTime<FixedOffset>`: attaches the
thirteen-byte encoding. -/
def to_sql_value_datetime_tz (dtz : RustDateTimeTz) : SqlValue :=
  .TimestampTz dtz (create_raw_from_datetime_with_timezone dtz)

/-- A Rust String as produced by the `FromSqlValue for String` impl.
Concrete strings (literals, clones, integer formatting, which is plain
decimal) are lists of scalar values; the `format!` renderings of f64 and
of the chrono types are kept symbolic, carrying the formatted value. -/
inductive RustStrRepr
  | chars (s : List Nat)
  | floatFmt (bits : Nat)
  | dateFmt (d : RustDate)
  | dateTimeFmt (dt : RustDateTime)
  | dateTimeTzFmt (dt : RustDateTimeTz)
  deriving DecidableEq, Repr

/-- Decimal digits of a natural number, most significant first. -/
def nat_decimal (n : Nat) : List Nat :=
  (Nat.toDigits 10 n).map Char.toNat

/-- Rust `format!` of an i64: optional minus sign then decimal digits. -/
def int_decimal (i : Int) : List Nat :=
  if i < 0 then 45 :: nat_decimal (-i).toNat else nat_decimal i.toNat

/-- The literal string "null" as scalar values. -/
def null_literal : List Nat := [110, 117, 108, 108]

/-- types.rs `impl FromSqlValue for String`: every variant converts,
Null becomes the literal "null". -/
def from_sql_value_string : SqlValue → Option RustStrRepr
  | .VarChar chars | .Char chars => some (.chars chars)
  | .Integer i => some (.chars (int_decimal i))
  | .Float bits => some (.floatFmt bits)
  | .Null => some (.chars null_literal)
  | .Date d _ => some (.dateFmt d)
  | .Timestamp dt _ => some (.dateTimeFmt dt)
  | .TimestampTz dt _ => some (.dateTimeTzFmt dt)

/-- types.rs `impl FromSqlValue for i64`: only an Integer converts. -/
def from_sql_value_i64 : SqlValue → Option Int
  | .Integer i => some i
  | _ => none

/-- types.rs `impl FromSqlValue for f64`: only a Float converts. -/
def from_sql_value_f64 : SqlValue → Option Nat
  | .Float bits => some bits
  | _ => none

/-- types.rs `impl FromSqlValue for Date<Utc>`: only a Date converts. -/
def from_sql_value_date : SqlValue → Option RustDate
  | .Date d _ => some d
  | _ => none

/-- types.rs `impl FromSqlValue for DateTime<Utc>`: only a Timestamp
converts. -/
def from_sql_value_datetime : SqlValue → Option RustDateTime
  | .Timestamp dt _ => some dt
  | _ => none

/-- types.rs `impl FromSqlValue for DateTime<FixedOffset>`: only a
TimestampTz converts. -/
def from_sql_value_datetime_tz : SqlValue → Option RustDateTimeTz
  | .TimestampTz dt _ => some dt
  | _ => none

/-- Result of statement.rs `determine_external_data_type`: the resolved
type, or the `panic!("Uknown external conversion.")` catch-all. -/
inductive DetTypeResult
  | ok (t : OciDataType)
  | panicked
  deriving DecidableEq, Repr

/-- statement.rs `determine_external_data_type`, with the two
side-channel column attributes (precision, read as a c_short, and scale,
read as a c_schar) supplied as arguments.  A Number column is resolved to
SqlFloat exactly when `(precision != 0) && (scale == -127)`, otherwise to
SqlInt; the internal SqlInt/SqlFloat tags fall into the panic arm. -/
def determine_external_data_type
    (internal_data_type : OciDataType) (precision scale : Int) : DetTypeResult :=
  match internal_data_type with
  | .SqlVarChar => .ok .SqlVarChar
  | .SqlNum =>
    if precision ≠ 0 ∧ scale = -127 then .ok .SqlFloat else .ok .SqlInt
  | .SqlChar => .ok .SqlChar
  | .SqlDate => .ok .SqlDate
  | .SqlTimestamp => .ok .SqlTimestamp
  | .SqlTimestampTz => .ok .SqlTimestampTz
  | _ => .panicked

/-- The ResultState enum from statement.rs. -/
inductive ResultState
  | Fetched
  | NotFetched
  deriving DecidableEq, Repr

/-- row.rs Row: the ordered columns of one fetched row. -/
structure Row where
  columns : List SqlValue
  deriving DecidableEq, Repr

/-- One step the server-side cursor can produce for a pull of
`build_result_row`: a row, or a failure of one of the native calls made
while building it (get_error description attached). -/
inductive FetchStep
  | row (r : Row)
  | fetchErr (description : String)
  deriving DecidableEq, Repr

/-- The mutable fields of statement.rs `Statement`, together with the
abstract server-side cursor feeding its fetch loop.  The bind-handle
slots are opaque null pointers in the source, so only their count is
observable. -/
structure StatementSt where
  bindings : Nat
  values : List SqlValue
  result_set : List Row
  result_state : ResultState
  cursor : List FetchStep
  deriving DecidableEq, Repr

/-- A bind parameter as the user supplies it: one of the types for which
the crate implements ToSqlValue (String and &str collapse to the same
variant, an f64 is its bit pattern). -/
inductive BindParam
  | strP (chars : List Nat)
  | intP (i : Int)
  | floatP (bits : Nat)
  | dateP (d : RustDate)
  | timestampP (dt : RustDateTime)
  | timestampTzP (dtz : RustDateTimeTz)
  deriving DecidableEq, Repr

/-- Dispatch of `param.to_sql_value()` over the ToSqlValue impls. -/
def BindParam.to_sql_value : BindParam → SqlValue
  | .strP chars => to_sql_value_string chars
  | .intP i => to_sql_value_i64 i
  | .floatP bits => to_sql_value_f64 bits
  | .dateP d => to_sql_value_date d
  | .timestampP dt => to_sql_value_datetime dt
  | .timestampTzP dtz => to_sql_value_datetime_tz dtz

/-- Outcome of `Statement::bind`: Ok, the error built by
`get_error(.., "Binding parameter")` on a non-success native status, or a
panic raised by the Null arms of as_oci_ptr / size / as_oci_data_type. -/
inductive BindOutcome
  | ok
  | bindErr (description : String)
  | panicked
  deriving DecidableEq, Repr

/-- What one `bind` call produced: the updated statement fields, the
1-based positions at which OCIBindByPos was invoked (in call order), and
the outcome. -/
structure BindResult where
  state : StatementSt
  calls : List Nat
  outcome : BindOutcome
  deriving DecidableEq, Repr

/-- The body of the for-loop of `Statement::bind`.  For each parameter in
turn: derive the SqlValue, push it on `values`, push a fresh bind-handle
slot, and invoke OCIBindByPos at position index+1 (its arguments
as_oci_ptr / size / as_oci_data_type panic first if the value is Null); a
non-success return code aborts with the "Binding parameter" error.  The
native status for each position is given by the oracle `rc`. -/
def bind_loop (rc : Nat → ReturnCode) :
    StatementSt → List BindParam → Nat → List Nat → BindResult
  | st, [], _, callsAcc => ⟨st, callsAcc.reverse, .ok⟩
  | st, param :: rest, index, callsAcc =>
    let sql_value := param.to_sql_value
    let st1 : StatementSt :=
      { st with values := st.values ++ [sql_value], bindings := st.bindings + 1 }
    let position := index + 1
    match sql_value.as_oci_ptr, sql_value.size, sql_value.as_oci_data_type with
    | some _, some _, some _ =>
      match rc position with
      | .Success => bind_loop rc st1 rest (index + 1) (position :: callsAcc)
      | _ => ⟨st1, (position :: callsAcc).reverse, .bindErr "Binding parameter"⟩
    | _, _, _ => ⟨st1, callsAcc.reverse, .panicked⟩

/-- statement.rs `Statement::bind`: clear the previously bound values
(`self.values.clear()`; the reserve call has no observable effect), then
run the bind loop.  The fetch-state flag, the cached result set and the
cursor are never touched. -/
def Statement.bind (st : StatementSt) (params : List BindParam)
    (rc : Nat → ReturnCode) : BindResult :=
  bind_loop rc { st with values := [] } params 0 []

/-- What one `execute` call produced: the returned Result (the error
carries the get_error description), the updated statement fields, and
the iteration count passed to OCIStmtExecute (none when the statement
type read failed and OCIStmtExecute was never reached). -/
structure ExecResult where
  out : Except String Unit
  state : StatementSt
  itersUsed : Option Nat
  deriving Repr

/-- statement.rs `Statement::execute`.  The statement type is read first
(`get_statement_type`, which can itself fail and propagates via the
question-mark operator); a Select executes with zero iterations, every
other type with one; on native success the state transitions to
NotFetched, on failure the "Executing statement" error is returned and
nothing changes.  The type-read result and the native status are supplied
by oracles. -/
def Statement.execute (st : StatementSt)
    (stmt_type : Except String StatementType) (rc : ReturnCode) : ExecResult :=
  match stmt_type with
  | .error e => ⟨.error e, st, none⟩
  | .ok t =>
    let iters : Nat := match t with | .Select => 0 | _ => 1
    match rc with
    | .Success => ⟨.ok (), { st with result_state := .NotFetched }, some iters⟩
    | _ => ⟨.error "Executing statement", st, some iters⟩

/-- Result of `lazy_result_set`: either the `panic!("Lazy fetch already
completed.")` of the Fetched arm, or the RowIter together with the
statement fields it mutated (the flag flips to Fetched before any row is
pulled). -/
inductive LazyOutcome
  | panicked (msg : String)
  | iter (st : StatementSt)
  deriving DecidableEq, Repr

/-- statement.rs `Statement::lazy_result_set`. -/
def Statement.lazy_result_set (st : StatementSt) : LazyOutcome :=
  match st.result_state with
  | .Fetched => .panicked "Lazy fetch already completed."
  | .NotFetched => .iter { st with result_state := .Fetched }

/-- One `RowIter::next` pull: `build_result_row` consumes the next cursor
step.  An empty cursor is the NoData outcome (iteration ends); a row step
yields `Some(Ok(row))`; an error step yields `Some(Err(..))`.  Returns
the iterator item and the remaining cursor. -/
def row_iter_next : List FetchStep → Option (Except String Row) × List FetchStep
  | [] => (none, [])
  | .row r :: rest => (some (.ok r), rest)
  | .fetchErr e :: rest => (some (.error e), rest)

/-- Rust `Iterator::collect::<Result<Vec<Row>, _>>` over RowIter: pull
until the iterator ends or the first error.  Returns the collected
result, the remaining cursor, and how many pulls (native fetch attempts)
were made. -/
def collect_rows : List FetchStep → Except String (List Row) × List FetchStep × Nat
  | [] => (.ok [], [], 1)
  | .row r :: rest =>
    let (res, remaining, pulls) := collect_rows rest
    (res.map (fun rows => r :: rows), remaining, pulls + 1)
  | .fetchErr e :: rest => (.error e, rest, 1)

/-- What one `result_set` call produced: the returned Result (a borrow of
the cached rows on success), the updated statement fields, and how many
native fetch attempts were made. -/
structure ResultSetResult where
  out : Except String (List Row)
  state : StatementSt
  fetchCalls : Nat
  deriving Repr

/-- statement.rs `Statement::result_set`.  Already Fetched: return the
cached rows, no fetch calls.  NotFetched: `lazy_result_set` (which flips
the flag to Fetched at once) is drained by `collect`; on success the rows
are cached (`self.result_set = rows?`) and `results_fetched` runs again;
on a collect error the question-mark operator returns it before the cache
is written. -/
def Statement.result_set (st : StatementSt) : ResultSetResult :=
  match st.result_state with
  | .Fetched => ⟨.ok st.result_set, st, 0⟩
  | .NotFetched =>
    let st1 : StatementSt := { st with result_state := .Fetched }
    match collect_rows st1.cursor with
    | (.ok rows, remaining, pulls) =>
      (⟨.ok rows,
        { st1 with result_set := rows, cursor := remaining, result_state := .Fetched },
        pulls⟩)
    | (.error e, remaining, pulls) =>
      ⟨.error e, { st1 with cursor := remaining }, pulls⟩

/-- oci_error.rs ErrorRecord: the action description plus the accumulated
(code, message) pairs in registration order. -/
structure ErrorRecord where
  description : String
  records : List (Int × String)
  deriving Repr

/-- The text block pushed for one record by the Display loop of
ErrorRecord, at zero-based loop index `idx`. -/
def record_block (idx : Nat) (e : Int × String) : String :=
  "\nError number: " ++ toString (idx + 1) ++
  "\nError code: ORA-" ++ toString e.1 ++
  "\nError text " ++ e.2

/-- The for-loop of `impl fmt::Display for ErrorRecord`: append one block
per record, numbering from the running index. -/
def display_records_loop : Nat → List (Int × String) → String
  | _, [] => ""
  | idx, e :: rest => record_block idx e ++ display_records_loop (idx + 1) rest

/-- oci_error.rs `impl fmt::Display for ErrorRecord`: the description
followed by every record block. -/
def error_record_display (er : ErrorRecord) : String :=
  er.description ++ display_records_loop 0 er.records

/-- oci_error.rs OciError (the Conversion and Nul payloads reduced to
their rendered text). -/
inductive OciErrorE
  | Oracle (er : ErrorRecord)
  | Conversion (msg : String)
  | Nul (msg : String)
  deriving Repr

/-- oci_error.rs `impl fmt::Display for OciError`. -/
def oci_error_display : OciErrorE → String
  | .Oracle er => error_record_display er
  | .Conversion msg => msg
  | .Nul msg => "Nul error: " ++ msg

/-! ## Theorems -/

/-- C2: for every (precision, scale) pair read for an ambiguous Number
column, the external type resolves to Float exactly when the precision is
non-zero and the scale is the sentinel -127, and to Integer in every
other case. -/
theorem numeric_disambiguation_c2 : ∀ precision scale : Int,
    (determine_external_data_type .SqlNum precision scale = .ok .SqlFloat ↔
      (precision ≠ 0 ∧ scale = -127)) ∧
    (determine_external_data_type .SqlNum precision scale = .ok .SqlInt ↔
      ¬(precision ≠ 0 ∧ scale = -127)) := by
  intro precision scale
  unfold determine_external_data_type
  by_cases h : precision ≠ 0 ∧ scale = -127 <;> simp [h]

/-- C5: calling lazy_result_set on a Statement already in the Fetched
state panics with the fatal usage-error message (the LazyOutcome type has
no recoverable-error constructor, so it is never a returned error value);
from NotFetched it flips the state to Fetched and hands back the row
iterator over the otherwise unchanged statement. -/
theorem lazy_result_set_fatal_c5 : ∀ st : StatementSt,
    (st.result_state = .Fetched →
      Statement.lazy_result_set st = .panicked "Lazy fetch already completed.") ∧
    (st.result_state = .NotFetched →
      Statement.lazy_result_set st = .iter { st with result_state := .Fetched }) := by
  intro st
  constructor <;> intro h <;> simp [Statement.lazy_result_set, h]

/-- C5 witness: both arms at concrete statements. -/
theorem lazy_result_set_fatal_c5_witness :
    Statement.lazy_result_set ⟨0, [], [], .Fetched, []⟩ =
      .panicked "Lazy fetch already completed." ∧
    Statement.lazy_result_set ⟨0, [], [], .NotFetched, []⟩ =
      .iter ⟨0, [], [], .Fetched, []⟩ :=
  ⟨(lazy_result_set_fatal_c5 ⟨0, [], [], .Fetched, []⟩).1 rfl,
   (lazy_result_set_fatal_c5 ⟨0, [], [], .NotFetched, []⟩).2 rfl⟩

/-- C6: execute passes iteration count zero to the native execute call
for a Select statement and one for every other statement type; on native
success it transitions the fetch state to NotFetched leaving every other
field unchanged; on native failure (and on a failed statement-type read)
it returns the error and leaves the whole state unchanged. -/
theorem execute_c6 : ∀ (st : StatementSt) (t : StatementType) (e : String)
    (rc : ReturnCode),
    ((Statement.execute st (.ok t) rc).itersUsed =
      some (if t = .Select then 0 else 1)) ∧
    (rc = .Success →
      Statement.execute st (.ok t) rc =
        ⟨.ok (), { st with result_state := .NotFetched },
         some (if t = .Select then 0 else 1)⟩) ∧
    (rc ≠ .Success →
      Statement.execute st (.ok t) rc =
        ⟨.error "Executing statement", st, some (if t = .Select then 0 else 1)⟩) ∧
    (Statement.execute st (.error e) rc = ⟨.error e, st, none⟩) := by
  intro st t e rc
  refine ⟨?_, ?_, ?_, rfl⟩ <;> cases t <;> cases rc <;> simp [Statement.execute]

/-- C9: converting Null with value of String yields Some of the literal
"null" (code points 110, 117, 108, 108), and value of String is Some for
every variant; by contrast the i64, f64 and temporal conversions are None
exactly on the variants that do not match. -/
theorem from_sql_value_c9 :
    from_sql_value_string SqlValue.Null = some (.chars null_literal) ∧
    null_literal = [110, 117, 108, 108] ∧
    (∀ v : SqlValue, (from_sql_value_string v).isSome = true) ∧
    (∀ v : SqlValue, from_sql_value_i64 v = none ↔ ∀ i, v ≠ SqlValue.Integer i) ∧
    (∀ v : SqlValue, from_sql_value_f64 v = none ↔ ∀ bits, v ≠ SqlValue.Float bits) ∧
    (∀ v : SqlValue, from_sql_value_date v = none ↔ ∀ d b, v ≠ SqlValue.Date d b) ∧
    (∀ v : SqlValue, from_sql_value_datetime v = none ↔
      ∀ dt b, v ≠ SqlValue.Timestamp dt b) ∧
    (∀ v : SqlValue, from_sql_value_datetime_tz v = none ↔
      ∀ dt b, v ≠ SqlValue.TimestampTz dt b) := by
  refine ⟨rfl, rfl, ?_, ?_, ?_, ?_, ?_, ?_⟩ <;> intro v <;> cases v <;>
    simp [from_sql_value_string, from_sql_value_i64, from_sql_value_f64,
      from_sql_value_date, from_sql_value_datetime, from_sql_value_datetime_tz]

/-- Every value derived by a ToSqlValue impl exposes a bind pointer, a
size and a data-type tag (it is never the panicking Null). -/
lemma bind_param_oci_defined (p : BindParam) :
    p.to_sql_value.as_oci_ptr.isSome = true ∧
    p.to_sql_value.size.isSome = true ∧
    p.to_sql_value.as_oci_data_type.isSome = true := by
  cases p <;> exact ⟨rfl, rfl, rfl⟩

/-- Unfolding of one iteration of the bind loop on a ToSqlValue-derived
parameter: the value and a fresh slot are pushed, then the native call at
position index+1 decides between continuing and aborting. -/
lemma bind_loop_cons (rc : Nat → ReturnCode) (st : StatementSt) (p : BindParam)
    (rest : List BindParam) (index : Nat) (callsAcc : List Nat) :
    bind_loop rc st (p :: rest) index callsAcc =
      if rc (index + 1) = .Success then
        bind_loop rc
          { st with values := st.values ++ [p.to_sql_value],
                    bindings := st.bindings + 1 }
          rest (index + 1) ((index + 1) :: callsAcc)
      else
        ⟨{ st with values := st.values ++ [p.to_sql_value],
                   bindings := st.bindings + 1 },
         ((index + 1) :: callsAcc).reverse, .bindErr "Binding parameter"⟩ := by
  cases p <;> (
    show (match rc (index + 1) with
      | .Success => _
      | _ => _) = _
    cases h : rc (index + 1) <;> simp [h])

/-- The bind loop never reaches the panicking Null arms: its outcome is
Ok or the binding error. -/
lemma bind_loop_no_panic (rc : Nat → ReturnCode) :
    ∀ (params : List BindParam) (st : StatementSt) (index : Nat)
      (callsAcc : List Nat),
      (bind_loop rc st params index callsAcc).outcome ≠ .panicked := by
  intro params
  induction params with
  | nil => intro st index callsAcc; simp [bind_loop]
  | cons p rest ih =>
    intro st index callsAcc
    rw [bind_loop_cons]
    by_cases h : rc (index + 1) = .Success <;> simp [h, ih]

/-- When the native call succeeds at every position the loop will reach,
the bind loop appends every derived value, adds one slot per parameter,
calls positions index+1, …, index+n in order and returns Ok. -/
lemma bind_loop_success (rc : Nat → ReturnCode) :
    ∀ (params : List BindParam) (st : StatementSt) (index : Nat)
      (callsAcc : List Nat),
      (∀ i, i < params.length → rc (index + 1 + i) = .Success) →
      bind_loop rc st params index callsAcc =
        ⟨{ st with values := st.values ++ params.map BindParam.to_sql_value,
                   bindings := st.bindings + params.length },
         callsAcc.reverse ++ List.range' (index + 1) params.length, .ok⟩ := by
  intro params
  induction params with
  | nil => intro st index callsAcc h; simp [bind_loop]
  | cons p rest ih =>
    intro st index callsAcc h
    rw [bind_loop_cons]
    have h0 : rc (index + 1) = .Success := by
      have := h 0 (by simp)
      simpa using this
    rw [if_pos h0]
    rw [ih _ (index + 1) ((index + 1) :: callsAcc)
      (fun i hi => by
        have := h (i + 1) (by simpa using Nat.succ_lt_succ hi)
        have he : index + 1 + (i + 1) = index + 1 + 1 + i := by omega
        rw [he] at this
        exact this)]
    simp [List.range'_succ]
    omega

/-- When the native call first fails at zero-based offset k, the bind
loop stops there: k+1 values pushed, k+1 slots added, positions
index+1, …, index+k+1 called, and the binding error returned. -/
lemma bind_loop_failure (rc : Nat → ReturnCode) :
    ∀ (params : List BindParam) (st : StatementSt) (index : Nat)
      (callsAcc : List Nat) (k : Nat),
      k < params.length →
      (∀ j, j < k → rc (index + 1 + j) = .Success) →
      rc (index + 1 + k) ≠ .Success →
      bind_loop rc st params index callsAcc =
        ⟨{ st with
            values := st.values ++ (params.take (k + 1)).map BindParam.to_sql_value,
            bindings := st.bindings + (k + 1) },
         callsAcc.reverse ++ List.range' (index + 1) (k + 1),
         .bindErr "Binding parameter"⟩ := by
  intro params
  induction params with
  | nil => intro st index callsAcc k hk; simp at hk
  | cons p rest ih =>
    intro st index callsAcc k hk hprev hfail
    rw [bind_loop_cons]
    cases k with
    | zero =>
      rw [if_neg (by simpa using hfail)]
      simp [List.range']
    | succ k =>
      have h0 : rc (index + 1) = .Success := by
        have := hprev 0 (by omega)
        simpa using this
      rw [if_pos h0]
      rw [ih _ (index + 1) ((index + 1) :: callsAcc) k
        (by simpa using Nat.lt_of_succ_lt_succ hk)
        (fun j hj => by
          have := hprev (j + 1) (by omega)
          have he : index + 1 + (j + 1) = index + 1 + 1 + j := by omega
          rw [he] at this
          exact this)
        (by
          have he : index + 1 + 1 + k = index + 1 + (k + 1) := by omega
          rw [he]
          exact hfail)]
      simp [List.range'_succ]
      omega

/-- The bind loop only writes the values and bindings fields: the fetch
state, the cached result set and the cursor pass through unchanged. -/
lemma bind_loop_preserves (rc : Nat → ReturnCode) :
    ∀ (params : List BindParam) (st : StatementSt) (index : Nat)
      (callsAcc : List Nat),
      (bind_loop rc st params index callsAcc).state.result_state = st.result_state ∧
      (bind_loop rc st params index callsAcc).state.result_set = st.result_set ∧
      (bind_loop rc st params index callsAcc).state.cursor = st.cursor := by
  intro params
  induction params with
  | nil => intro st index callsAcc; simp [bind_loop]
  | cons p rest ih =>
    intro st index callsAcc
    rw [bind_loop_cons]
    by_cases h : rc (index + 1) = .Success
    · rw [if_pos h]
      simpa using ih _ (index + 1) ((index + 1) :: callsAcc)
    · rw [if_neg h]
      exact ⟨rfl, rfl, rfl⟩

/-- C3: bind clears the previously bound values and repopulates them
positionally (one derived SqlValue and one fresh bind slot per parameter,
native calls at 1-based positions 1..n, once per parameter); the first
non-success native status aborts after its call with the error named
"Binding parameter"; the fetch state, the cached result set and the
cursor are untouched in every case. -/
theorem bind_c3 : ∀ (st : StatementSt) (params : List BindParam)
    (rc : Nat → ReturnCode),
    ((Statement.bind st params rc).state.result_state = st.result_state ∧
     (Statement.bind st params rc).state.result_set = st.result_set ∧
     (Statement.bind st params rc).state.cursor = st.cursor) ∧
    ((∀ i, i < params.length → rc (i + 1) = .Success) →
      Statement.bind st params rc =
        ⟨{ st with values := params.map BindParam.to_sql_value,
                   bindings := st.bindings + params.length },
         List.range' 1 params.length, .ok⟩) ∧
    (∀ k, k < params.length → (∀ j, j < k → rc (j + 1) = .Success) →
      rc (k + 1) ≠ .Success →
      Statement.bind st params rc =
        ⟨{ st with
            values := (params.take (k + 1)).map BindParam.to_sql_value,
            bindings := st.bindings + (k + 1) },
         List.range' 1 (k + 1), .bindErr "Binding parameter"⟩) := by
  intro st params rc
  refine ⟨?_, ?_, ?_⟩
  · unfold Statement.bind
    simpa using bind_loop_preserves rc params { st with values := [] } 0 []
  · intro h
    unfold Statement.bind
    rw [bind_loop_success rc params _ 0 []
      (fun i hi => by
        have e : 0 + 1 + i = i + 1 := by omega
        rw [e]; exact h i hi)]
    simp
  · intro k hk hprev hfail
    unfold Statement.bind
    rw [bind_loop_failure rc params _ 0 [] k hk
      (fun j hj => by
        have e : 0 + 1 + j = j + 1 := by omega
        rw [e]; exact hprev j hj)
      (by
        have e : 0 + 1 + k = k + 1 := by omega
        rw [e]; exact hfail)]
    simp

/-- C10: the provided ToSqlValue impls never derive Null, so the
panicking Null arms of as_oci_ptr, size and as_oci_data_type are
unreachable during binding: for every parameter list, bind never
panics. -/
theorem bind_never_null_c10 :
    (∀ p : BindParam, p.to_sql_value ≠ SqlValue.Null ∧
      p.to_sql_value.as_oci_ptr.isSome = true ∧
      p.to_sql_value.size.isSome = true ∧
      p.to_sql_value.as_oci_data_type.isSome = true) ∧
    (∀ (st : StatementSt) (params : List BindParam) (rc : Nat → ReturnCode),
      (Statement.bind st params rc).outcome ≠ .panicked) := by
  constructor
  · intro p
    refine ⟨?_, bind_param_oci_defined p⟩
    cases p <;> simp [BindParam.to_sql_value, to_sql_value_string, to_sql_value_i64,
      to_sql_value_f64, to_sql_value_date, to_sql_value_datetime,
      to_sql_value_datetime_tz]
  · intro st params rc
    exact bind_loop_no_panic rc params _ 0 []

/-- On a cursor consisting only of rows, collect drains them all in
order: the row list is returned, the cursor is left empty, and the number
of native fetch attempts is rows + 1 (the final pull reports NoData). -/
lemma collect_rows_all_rows :
    ∀ cursor : List FetchStep, (∀ s ∈ cursor, ∃ r, s = FetchStep.row r) →
      ∃ rows : List Row,
        collect_rows cursor = (.ok rows, [], cursor.length + 1) ∧
        cursor = rows.map FetchStep.row := by
  intro cursor
  induction cursor with
  | nil => intro _; exact ⟨[], rfl, rfl⟩
  | cons s rest ih =>
    intro h
    obtain ⟨r, hr⟩ := h s (by simp)
    subst hr
    obtain ⟨rows, hrows, hmap⟩ := ih (fun t ht => h t (by simp [ht]))
    refine ⟨r :: rows, ?_, by simp [hmap]⟩
    simp [collect_rows, hrows, Except.map]

/-- C4: on a Statement whose execute succeeded (state NotFetched) and
whose cursor holds plain rows, the first result_set call drains every row
(cursor length + 1 native fetch attempts, the last reporting NoData),
caches them and transitions to Fetched; calling result_set again returns
the identical row collection with zero further fetch calls, which is also
the behaviour of result_set on any already-Fetched statement. -/
theorem result_set_idempotent_c4 : ∀ st : StatementSt,
    (st.result_state = .Fetched →
      Statement.result_set st = ⟨.ok st.result_set, st, 0⟩) ∧
    (st.result_state = .NotFetched →
      (∀ s ∈ st.cursor, ∃ r, s = FetchStep.row r) →
      ∃ rows : List Row,
        st.cursor = rows.map FetchStep.row ∧
        Statement.result_set st =
          ⟨.ok rows,
           { st with result_set := rows, result_state := .Fetched, cursor := [] },
           st.cursor.length + 1⟩ ∧
        Statement.result_set
            { st with result_set := rows, result_state := .Fetched, cursor := [] } =
          ⟨.ok rows,
           { st with result_set := rows, result_state := .Fetched, cursor := [] },
           0⟩) := by
  intro st
  constructor
  · intro h
    simp [Statement.result_set, h]
  · intro h hrows
    obtain ⟨rows, hcollect, hmap⟩ := collect_rows_all_rows st.cursor hrows
    refine ⟨rows, hmap, ?_, ?_⟩
    · simp [Statement.result_set, h, hcollect]
    · simp [Statement.result_set]

/-- C4 witness: a two-row cursor drained by the first call, cached and
returned unchanged by the second. -/
theorem result_set_idempotent_c4_witness :
    Statement.result_set
        ⟨0, [], [], .NotFetched, [.row ⟨[.Integer 1]⟩, .row ⟨[.Integer 2]⟩]⟩ =
      ⟨.ok [⟨[.Integer 1]⟩, ⟨[.Integer 2]⟩],
       ⟨0, [], [⟨[.Integer 1]⟩, ⟨[.Integer 2]⟩], .Fetched, []⟩, 3⟩ ∧
    Statement.result_set ⟨0, [], [⟨[.Integer 1]⟩, ⟨[.Integer 2]⟩], .Fetched, []⟩ =
      ⟨.ok [⟨[.Integer 1]⟩, ⟨[.Integer 2]⟩],
       ⟨0, [], [⟨[.Integer 1]⟩, ⟨[.Integer 2]⟩], .Fetched, []⟩, 0⟩ := by
  have h := (result_set_idempotent_c4
    ⟨0, [], [], .NotFetched, [.row ⟨[.Integer 1]⟩, .row ⟨[.Integer 2]⟩]⟩).2
    rfl (by intro s hs; simp at hs; rcases hs with h | h <;> exact ⟨_, h⟩)
  obtain ⟨rows, hmap, h1, h2⟩ := h
  have hr : rows = [⟨[.Integer 1]⟩, ⟨[.Integer 2]⟩] := by
    have := hmap
    cases rows with
    | nil => simp at this
    | cons a tl =>
      cases tl with
      | nil => simp at this
      | cons b tl2 =>
        cases tl2 with
        | nil =>
          simp [List.map] at this
          obtain ⟨ha, hb⟩ := this
          rw [← ha, ← hb]
        | cons c tl3 => simp [List.map] at this
  rw [hr] at h1 h2
  exact ⟨h1, h2⟩

/-- The record loop of the ErrorRecord Display impl renders one block per
record, in order, each numbered by its position. -/
lemma display_records_loop_eq :
    ∀ (records : List (Int × String)) (idx : Nat),
      display_records_loop idx records =
        ((records.enumFrom idx).map (fun e => record_block e.1 e.2)).foldr
          (fun a b => a ++ b) "" := by
  intro records
  induction records with
  | nil => intro idx; rfl
  | cons e rest ih =>
    intro idx
    simp only [display_records_loop, List.enumFrom, List.map, List.foldr, ih]

/-- C8: the Display rendering of a server (Oracle) error is the
triggering action description followed by one block per accumulated
(code, message) record, in registration order, each numbered by its
1-based position; the block list has exactly one entry per record, so
nothing is truncated. -/
theorem error_display_c8 : ∀ er : ErrorRecord,
    oci_error_display (.Oracle er) =
      er.description ++
        ((er.records.enumFrom 0).map (fun e => record_block e.1 e.2)).foldr
          (fun a b => a ++ b) "" ∧
    ((er.records.enumFrom 0).map (fun e => record_block e.1 e.2)).length =
      er.records.length ∧
    (∀ idx e, record_block idx e =
      "\nError number: " ++ toString (idx + 1) ++ "\nError code: ORA-" ++
        toString e.1 ++ "\nError text " ++ e.2) := by
  intro er
  refine ⟨?_, by simp, fun idx e => rfl⟩
  show error_record_display er = _
  unfold error_record_display
  rw [display_records_loop_eq]

/-- C7 amended: decoding a VarChar column returns the text trimmed of
leading AND trailing whitespace (`str::trim`) when the bytes are valid
utf8, a Char column returns it untrimmed, and for both the invalid-bytes
case is the returned Conversion error value, never the panic arm. -/
theorem varchar_decode_c7 : ∀ data : List Nat,
    (∀ chars, string_from_utf8 data = some chars →
      SqlValue.create_from_raw data .SqlVarChar = .ok (.VarChar (rust_trim chars)) ∧
      SqlValue.create_from_raw data .SqlChar = .ok (.Char chars)) ∧
    (string_from_utf8 data = none →
      SqlValue.create_from_raw data .SqlVarChar = .conversionError ∧
      SqlValue.create_from_raw data .SqlChar = .conversionError) ∧
    SqlValue.create_from_raw data .SqlVarChar ≠ .panicked ∧
    SqlValue.create_from_raw data .SqlChar ≠ .panicked := by
  intro data
  cases h : string_from_utf8 data <;>
    simp [SqlValue.create_from_raw, h]

/-- C7 counterexample to the claim as stated: on the valid text
consisting of a space then the letter a, trailing-only trimming (the
claim) keeps the leading space, but create_from_raw trims it away. -/
theorem varchar_decode_c7_counterexample :
    string_from_utf8 [32, 97] = some [32, 97] ∧
    rust_trim_end [32, 97] = [32, 97] ∧
    SqlValue.create_from_raw [32, 97] .SqlVarChar = .ok (.VarChar [97]) ∧
    SqlValue.create_from_raw [32, 97] .SqlVarChar ≠
      .ok (.VarChar (rust_trim_end [32, 97])) := by
  refine ⟨by decide, by decide, by decide, by decide⟩

/-- C7 witness: the amended theorem applied at a concrete valid input
(space, h, space: VarChar trims both ends, Char keeps all) and at a
concrete invalid input (a lone continuation byte). -/
theorem varchar_decode_c7_witness :
    SqlValue.create_from_raw [32, 104, 32] .SqlVarChar =
      .ok (.VarChar (rust_trim [32, 104, 32])) ∧
    SqlValue.create_from_raw [32, 104, 32] .SqlChar = .ok (.Char [32, 104, 32]) ∧
    SqlValue.create_from_raw [255] .SqlVarChar = .conversionError :=
  ⟨((varchar_decode_c7 [32, 104, 32]).1 [32, 104, 32] (by decide)).1,
   ((varchar_decode_c7 [32, 104, 32]).1 [32, 104, 32] (by decide)).2,
   ((varchar_decode_c7 [255]).2.1 (by decide)).1⟩

/-- The Rust cast as u8 is the identity on values already in range. -/
lemma u8_of_int_cast (x : Int) (h0 : 0 ≤ x) (h1 : x < 256) :
    (u8_of_int x : Int) = x := by
  unfold u8_of_int
  omega

/-- Bounds pinning down truncating division (Rust `/`) by a positive
divisor, stated so that linear arithmetic can use them: for a nonneg
dividend the product b * tdiv lies in (a-b, a], for a nonpos dividend in
[a, a+b). -/
lemma tdiv_bounds (a b : Int) (hb : 0 < b) :
    (0 ≤ a → a - b < b * a.tdiv b ∧ b * a.tdiv b ≤ a) ∧
    (a ≤ 0 → a ≤ b * a.tdiv b ∧ b * a.tdiv b < a + b) := by
  constructor
  · intro h
    rw [Int.tdiv_eq_ediv h (le_of_lt hb)]
    have h2 := Int.ediv_add_emod a b
    have h3 := Int.emod_nonneg a (ne_of_gt hb)
    have h4 := Int.emod_lt_of_pos a hb
    omega
  · intro h
    have hneg : (-a).tdiv b = -(a.tdiv b) := Int.neg_tdiv a b
    have h2 : (-a).tdiv b = (-a) / b := Int.tdiv_eq_ediv (by omega) (le_of_lt hb)
    have h3 := Int.ediv_add_emod (-a) b
    have h4 := Int.emod_nonneg (-a) (ne_of_gt hb)
    have h5 := Int.emod_lt_of_pos (-a) hb
    have key : b * a.tdiv b = a + (-a) % b := by
      have he : a.tdiv b = -((-a) / b) := by omega
      rw [he, mul_neg]
      omega
    omega

/-- Calendar-field validity of a Date value as chrono can hold it within
the byte-representable year span of the seven-byte wire format. -/
abbrev ValidDate (d : RustDate) : Prop :=
  -9999 ≤ d.year ∧ d.year ≤ 9999 ∧ 1 ≤ d.month ∧ d.month ≤ 12 ∧
  1 ≤ d.day ∧ d.day ≤ 31

/-- Calendar-field validity of a UTC datetime. -/
abbrev ValidDateTime (dt : RustDateTime) : Prop :=
  ValidDate dt.date ∧ dt.hour ≤ 23 ∧ dt.minute ≤ 59 ∧ dt.second ≤ 59 ∧
  dt.nano < 4294967296

/-- Offsets the thirteen-byte wire format can carry back: chrono allows
magnitudes below one day; hour parts below -20 would wrap the
offset-hour byte. -/
abbrev ValidOffset (offsetSecs : Int) : Prop :=
  -72000 ≤ offsetSecs ∧ offsetSecs ≤ 86399

/-- Decoding the seven-byte encoding of a valid date recovers its
fields. -/
lemma year_byte_bounds (y : Int) (hy1 : -9999 ≤ y) (hy2 : y ≤ 9999) :
    -99 ≤ y.tdiv 100 ∧ y.tdiv 100 ≤ 99 ∧
    0 ≤ y - y.tdiv 100 * 100 + 100 ∧ y - y.tdiv 100 * 100 + 100 ≤ 199 := by
  have hb := tdiv_bounds y 100 (by norm_num)
  rcases le_or_lt 0 y with h | h
  · have := hb.1 h
    omega
  · have := hb.2 (by omega)
    omega

/-- Decoding the century and year bytes of the encoding of a
representable year recovers it. -/
lemma year_roundtrip (y : Int) (hy1 : -9999 ≤ y) (hy2 : y ≤ 9999) :
    convert_century (convert_year_to_century_raw y) +
      convert_year (convert_year_to_raw y) = y := by
  have hq := year_byte_bounds y hy1 hy2
  unfold convert_year_to_century_raw convert_year_to_raw convert_century
    convert_year
  rw [u8_of_int_cast _ (by omega) (by omega), u8_of_int_cast _ (by omega) (by omega)]
  ring_nf

lemma decode_date_fields (y : Int) (mo da : Nat) (hy1 : -9999 ≤ y)
    (hy2 : y ≤ 9999) (hm2 : mo ≤ 12) (hd2 : da ≤ 31) :
    (create_datetime_from_raw (create_raw_from_date ⟨y, mo, da⟩)).date =
      ⟨y, mo, da⟩ := by
  have hyr := year_roundtrip y hy1 hy2
  unfold create_raw_from_date create_datetime_from_raw RustDateTime.date
    convert_month convert_day
  simp only [List.getD, List.get?, List.length, Option.getD]
  norm_num
  exact ⟨hyr, by omega, by omega⟩

/-- Decoding the seven-byte date encoding re-attaches the identical
buffer: the full Date round trip. -/
lemma date_roundtrip (d : RustDate) (hv : ValidDate d) :
    SqlValue.create_from_raw (create_raw_from_date d) .SqlDate =
      .ok (to_sql_value_date d) := by
  obtain ⟨y, mo, da⟩ := d
  obtain ⟨hy1, hy2, hm1, hm2, hd1, hd2⟩ := hv
  have h := decode_date_fields y mo da hy1 hy2 hm2 hd2
  simp only [SqlValue.create_from_raw, to_sql_value_date, h]

/-- Decoding the eleven-byte encoding of a valid UTC datetime recovers
every field including the nanoseconds. -/
lemma decode_datetime_fields (y : Int) (mo da ho mi se na : Nat)
    (hy1 : -9999 ≤ y) (hy2 : y ≤ 9999) (hm2 : mo ≤ 12) (hd2 : da ≤ 31)
    (hh : ho ≤ 23) (hmi : mi ≤ 59) (hs : se ≤ 59) (hn : na < 4294967296) :
    create_datetime_from_raw (create_raw_from_datetime ⟨y, mo, da, ho, mi, se, na⟩) =
      ⟨y, mo, da, ho, mi, se, na⟩ := by
  have hyr := year_roundtrip y hy1 hy2
  unfold create_raw_from_datetime create_datetime_from_raw
    convert_month convert_day convert_hour convert_minute convert_second
    convert_hour_to_raw convert_minute_to_raw convert_second_to_raw
    convert_nano convert_nano_to_raw
  simp only [List.cons_append, List.nil_append, List.getD, List.get?,
    List.length, Option.getD]
  norm_num
  exact ⟨hyr, by omega, by omega, by omega, by omega, by omega, by omega⟩

/-- The Timestamp round trip. -/
lemma datetime_roundtrip (dt : RustDateTime) (hv : ValidDateTime dt) :
    SqlValue.create_from_raw (create_raw_from_datetime dt) .SqlTimestamp =
      .ok (to_sql_value_datetime dt) := by
  obtain ⟨y, mo, da, ho, mi, se, na⟩ := dt
  obtain ⟨⟨hy1, hy2, hm1, hm2, hd1, hd2⟩, hh, hmi, hs, hn⟩ := hv
  have h := decode_datetime_fields y mo da ho mi se na hy1 hy2 hm2 hd2 hh hmi hs hn
  simp only [SqlValue.create_from_raw, to_sql_value_datetime, h]

/-- Byte-range bounds for the two offset bytes of the thirteen-byte
format within the representable offset span. -/
lemma offset_bytes_bounds (off : Int) (h1 : -72000 ≤ off) (h2 : off ≤ 86399) :
    0 ≤ off.tdiv 3600 + 20 ∧ off.tdiv 3600 + 20 ≤ 43 ∧
    0 ≤ (off - off.tdiv 3600 * 3600).tdiv 60 + 60 ∧
    (off - off.tdiv 3600 * 3600).tdiv 60 + 60 ≤ 119 := by
  have hb := tdiv_bounds off 3600 (by norm_num)
  rcases le_or_lt 0 off with h | h
  · have k1 := hb.1 h
    have k2 := (tdiv_bounds (off - off.tdiv 3600 * 3600) 60 (by norm_num)).1 (by omega)
    omega
  · have k1 := hb.2 (by omega)
    have k2 := (tdiv_bounds (off - off.tdiv 3600 * 3600) 60 (by norm_num)).2 (by omega)
    omega

/-- Truncating an offset to whole hours and leftover whole minutes is
idempotent: re-encoding the decoded offset reproduces the same hour and
minute parts. -/
lemma offset_normalize_idem (off : Int) (h1 : -72000 ≤ off) (h2 : off ≤ 86399) :
    (off.tdiv 3600 * 3600 + (off - off.tdiv 3600 * 3600).tdiv 60 * 60).tdiv 3600 =
      off.tdiv 3600 ∧
    ((off.tdiv 3600 * 3600 + (off - off.tdiv 3600 * 3600).tdiv 60 * 60) -
      (off.tdiv 3600 * 3600 +
        (off - off.tdiv 3600 * 3600).tdiv 60 * 60).tdiv 3600 * 3600).tdiv 60 =
      (off - off.tdiv 3600 * 3600).tdiv 60 := by
  have hb1 := tdiv_bounds off 3600 (by norm_num)
  have hb2 := tdiv_bounds (off - off.tdiv 3600 * 3600) 60 (by norm_num)
  have hb3 := tdiv_bounds
    (off.tdiv 3600 * 3600 + (off - off.tdiv 3600 * 3600).tdiv 60 * 60) 3600
    (by norm_num)
  have hb4 := tdiv_bounds
    ((off.tdiv 3600 * 3600 + (off - off.tdiv 3600 * 3600).tdiv 60 * 60) -
      (off.tdiv 3600 * 3600 +
        (off - off.tdiv 3600 * 3600).tdiv 60 * 60).tdiv 3600 * 3600) 60
    (by norm_num)
  rcases le_or_lt 0 off with h | h
  · have k1 := hb1.1 h
    have k2 := hb2.1 (by omega)
    have k3 := hb3.1 (by omega)
    have q2 := hb4.1 (by omega)
    constructor
    · omega
    · omega
  · have k1 := hb1.2 (by omega)
    have k2 := hb2.2 (by omega)
    have k3 := hb3.2 (by omega)
    have q2 := hb4.2 (by omega)
    constructor
    · omega
    · omega

/-- Decoding the thirteen-byte encoding recovers the UTC fields exactly
and the offset truncated to whole hours plus leftover whole minutes. -/
lemma decode_datetime_tz_fields (y : Int) (mo da ho mi se na : Nat) (off : Int)
    (hy1 : -9999 ≤ y) (hy2 : y ≤ 9999) (hm2 : mo ≤ 12) (hd2 : da ≤ 31)
    (hh : ho ≤ 23) (hmi : mi ≤ 59) (hs : se ≤ 59) (hn : na < 4294967296)
    (ho1 : -72000 ≤ off) (ho2 : off ≤ 86399) :
    create_datetime_with_timezone_from_raw
        (create_raw_from_datetime_with_timezone ⟨⟨y, mo, da, ho, mi, se, na⟩, off⟩) =
      ⟨⟨y, mo, da, ho, mi, se, na⟩,
       off.tdiv 3600 * 3600 + (off - off.tdiv 3600 * 3600).tdiv 60 * 60⟩ := by
  have hyr := year_roundtrip y hy1 hy2
  have hob := offset_bytes_bounds off ho1 ho2
  have hcb : ((u8_of_int (off.tdiv 3600 + 20) : Nat) : Int) = off.tdiv 3600 + 20 :=
    u8_of_int_cast _ (by omega) (by omega)
  have hmb : ((u8_of_int ((off - off.tdiv 3600 * 3600).tdiv 60 + 60) : Nat) : Int) =
      (off - off.tdiv 3600 * 3600).tdiv 60 + 60 :=
    u8_of_int_cast _ (by omega) (by omega)
  unfold create_raw_from_datetime_with_timezone create_raw_from_datetime
    create_datetime_with_timezone_from_raw
    convert_month convert_day convert_hour convert_minute convert_second
    convert_hour_to_raw convert_minute_to_raw convert_second_to_raw
    convert_nano convert_nano_to_raw
    convert_timezone_hour convert_timezone_minute
    convert_timezone_seconds_to_hour_raw convert_timezone_seconds_to_minute_raw
  simp only [List.cons_append, List.nil_append, List.getD, List.get?,
    List.length, Option.getD]
  norm_num
  refine ⟨⟨hyr, by omega, by omega, by omega, by omega, by omega, by omega⟩, ?_⟩
  rw [hcb, hmb]
  ring

/-- The TimestampTz round trip: the decoded value has the identical UTC
instant (chrono equality of two fixed-offset datetimes) and re-encoding
it rebuilds the identical thirteen-byte buffer. -/
lemma datetime_tz_roundtrip (dtz : RustDateTimeTz) (hv : ValidDateTime dtz.utc)
    (hoff : ValidOffset dtz.offsetSecs) :
    ∃ decoded : RustDateTimeTz,
      SqlValue.create_from_raw (create_raw_from_datetime_with_timezone dtz)
          .SqlTimestampTz =
        .ok (.TimestampTz decoded (create_raw_from_datetime_with_timezone dtz)) ∧
      decoded.utc = dtz.utc := by
  obtain ⟨⟨y, mo, da, ho, mi, se, na⟩, off⟩ := dtz
  obtain ⟨⟨hy1, hy2, hm1, hm2, hd1, hd2⟩, hh, hmi, hs, hn⟩ := hv
  obtain ⟨ho1, ho2⟩ := hoff
  have hdec := decode_datetime_tz_fields y mo da ho mi se na off
    hy1 hy2 hm2 hd2 hh hmi hs hn ho1 ho2
  have hidem := offset_normalize_idem off ho1 ho2
  refine ⟨⟨⟨y, mo, da, ho, mi, se, na⟩,
    off.tdiv 3600 * 3600 + (off - off.tdiv 3600 * 3600).tdiv 60 * 60⟩, ?_, rfl⟩
  simp only [SqlValue.create_from_raw, hdec]
  unfold create_raw_from_datetime_with_timezone
    convert_timezone_seconds_to_hour_raw convert_timezone_seconds_to_minute_raw
  dsimp only
  rw [hidem.2, hidem.1]

/-- The Integer round trip: eight little-endian bytes back to the same
signed 64-bit value. -/
lemma int_roundtrip (i : Int) (h1 : -9223372036854775808 ≤ i)
    (h2 : i < 9223372036854775808) :
    SqlValue.create_from_raw (i64_to_bytes_le i) .SqlInt =
      .ok (to_sql_value_i64 i) := by
  simp only [SqlValue.create_from_raw, to_sql_value_i64, CreateRawResult.ok.injEq,
    SqlValue.Integer.injEq]
  unfold read_i64_le read_u64_le i64_to_bytes_le
  simp only [List.getD, List.get?, Option.getD]
  split_ifs <;> omega

/-- The Float round trip: eight little-endian bytes back to the same
64-bit pattern. -/
lemma float_roundtrip (bits : Nat) (h : bits < 18446744073709551616) :
    SqlValue.create_from_raw (u64_to_bytes_le bits) .SqlFloat =
      .ok (to_sql_value_f64 bits) := by
  simp only [SqlValue.create_from_raw, to_sql_value_f64, CreateRawResult.ok.injEq,
    SqlValue.Float.injEq]
  unfold read_u64_le u64_to_bytes_le
  simp only [List.getD, List.get?, Option.getD]
  omega

/-- C1: for every native value of type Integer, Float, Date, Timestamp
or TimestampWithOffset (within the ranges the wire format and chrono can
represent), the raw bytes its SqlValue exposes for binding are the
documented fixed-width encoding (8-byte little-endian for Integer and
Float, the attached 7/11/13-byte buffer for the temporal types), and
create_from_raw on those bytes returns the original SqlValue, buffer
included.  For TimestampWithOffset the decoded value compares equal the
way Rust compares it (chrono instant equality on the datetime, byte
equality on the attached buffer). -/
theorem codec_roundtrip_c1 :
    (∀ i : Int, -9223372036854775808 ≤ i → i < 9223372036854775808 →
      (to_sql_value_i64 i).as_oci_ptr = some (i64_to_bytes_le i) ∧
      SqlValue.create_from_raw (i64_to_bytes_le i) .SqlInt =
        .ok (to_sql_value_i64 i)) ∧
    (∀ bits : Nat, bits < 18446744073709551616 →
      (to_sql_value_f64 bits).as_oci_ptr = some (u64_to_bytes_le bits) ∧
      SqlValue.create_from_raw (u64_to_bytes_le bits) .SqlFloat =
        .ok (to_sql_value_f64 bits)) ∧
    (∀ d : RustDate, ValidDate d →
      (to_sql_value_date d).as_oci_ptr = some (create_raw_from_date d) ∧
      SqlValue.create_from_raw (create_raw_from_date d) .SqlDate =
        .ok (to_sql_value_date d)) ∧
    (∀ dt : RustDateTime, ValidDateTime dt →
      (to_sql_value_datetime dt).as_oci_ptr = some (create_raw_from_datetime dt) ∧
      SqlValue.create_from_raw (create_raw_from_datetime dt) .SqlTimestamp =
        .ok (to_sql_value_datetime dt)) ∧
    (∀ dtz : RustDateTimeTz, ValidDateTime dtz.utc → ValidOffset dtz.offsetSecs →
      (to_sql_value_datetime_tz dtz).as_oci_ptr =
        some (create_raw_from_datetime_with_timezone dtz) ∧
      ∃ decoded : RustDateTimeTz,
        SqlValue.create_from_raw (create_raw_from_datetime_with_timezone dtz)
            .SqlTimestampTz =
          .ok (.TimestampTz decoded (create_raw_from_datetime_with_timezone dtz)) ∧
        decoded.utc = dtz.utc) := by
  refine ⟨?_, ?_, ?_, ?_, ?_⟩
  · intro i h1 h2
    exact ⟨rfl, int_roundtrip i h1 h2⟩
  · intro bits h
    exact ⟨rfl, float_roundtrip bits h⟩
  · intro d hv
    exact ⟨rfl, date_roundtrip d hv⟩
  · intro dt hv
    exact ⟨rfl, datetime_roundtrip dt hv⟩
  · intro dtz hv hoff
    exact ⟨rfl, datetime_tz_roundtrip dtz hv hoff⟩

/-- C1 witness: the round trip evaluated at a negative integer, a float
bit pattern, the date 2006-10-01, a nanosecond timestamp and a UTC
instant carried at the +5:30 offset (19800 seconds). -/
theorem codec_roundtrip_c1_witness :
    SqlValue.create_from_raw (i64_to_bytes_le (-42)) .SqlInt =
      .ok (to_sql_value_i64 (-42)) ∧
    SqlValue.create_from_raw (u64_to_bytes_le 4631107791820423168) .SqlFloat =
      .ok (to_sql_value_f64 4631107791820423168) ∧
    SqlValue.create_from_raw (create_raw_from_date ⟨2006, 10, 1⟩) .SqlDate =
      .ok (to_sql_value_date ⟨2006, 10, 1⟩) ∧
    SqlValue.create_from_raw
        (create_raw_from_datetime ⟨2018, 1, 5, 19, 25, 30, 123456789⟩)
        .SqlTimestamp =
      .ok (to_sql_value_datetime ⟨2018, 1, 5, 19, 25, 30, 123456789⟩) ∧
    ∃ decoded : RustDateTimeTz,
      SqlValue.create_from_raw
          (create_raw_from_datetime_with_timezone
            ⟨⟨2018, 1, 5, 19, 25, 30, 0⟩, 19800⟩) .SqlTimestampTz =
        .ok (.TimestampTz decoded
          (create_raw_from_datetime_with_timezone
            ⟨⟨2018, 1, 5, 19, 25, 30, 0⟩, 19800⟩)) ∧
      decoded.utc = ⟨2018, 1, 5, 19, 25, 30, 0⟩ :=
  ⟨(codec_roundtrip_c1.1 (-42) (by decide) (by decide)).2,
   (codec_roundtrip_c1.2.1 4631107791820423168 (by decide)).2,
   (codec_roundtrip_c1.2.2.1 ⟨2006, 10, 1⟩ (by decide)).2,
   (codec_roundtrip_c1.2.2.2.1 ⟨2018, 1, 5, 19, 25, 30, 123456789⟩ (by decide)).2,
   (codec_roundtrip_c1.2.2.2.2 ⟨⟨2018, 1, 5, 19, 25, 30, 0⟩, 19800⟩
     (by decide) (by decide)).2⟩

/-- C1 counterexample to the unrestricted claim: chrono can hold the
date 20000-10-01, but the seven-byte century encoding wraps (the century
byte 20000/100 + 100 = 300 is cast to the u8 value 44), so decoding the
encoding yields the date -5600-10-01, not the original value. -/
theorem codec_roundtrip_c1_counterexample :
    SqlValue.create_from_raw (create_raw_from_date ⟨20000, 10, 1⟩) .SqlDate =
      .ok (to_sql_value_date ⟨-5600, 10, 1⟩) ∧
    to_sql_value_date ⟨-5600, 10, 1⟩ ≠ to_sql_value_date ⟨20000, 10, 1⟩ := by
  refine ⟨by decide, by decide⟩

end OciRs
